import Mathlib

/-!
Shallow embedding of the desktop streaming pipeline of
`apps/ai_panel` (Windows capture server `windows_server/main.py`,
client stream service `ai_panel/services/zmq_stream_service.py`,
render panel `ai_panel/ui/panels/desktop_stream_panel.py`),
together with proofs about the embedded operations.
-/

namespace DisplayStream

/-! ## Frame-change suppression (windows_server/main.py, CaptureWorker._worker_loop 321-336)

State carried across cycles: `self.last_frame_hash` and `self.frame_skip_count`.
Each cycle with `should_send` computes `frame_hash`, compares it to the stored
hash, and decides `should_send_frame`. -/

structure SuppressState where
  lastFrameHash : Option Nat
  frameSkipCount : Nat
deriving Repr, DecidableEq

/-- One cycle of the change-detection block: returns the updated state and
whether `should_send_frame` ended up `True` (a publish is attempted). -/
def suppressStep (st : SuppressState) (frameHash : Nat) : SuppressState × Bool :=
  let p : SuppressState × Bool :=
    if st.lastFrameHash = some frameHash then
      (⟨st.lastFrameHash, st.frameSkipCount + 1⟩, false)
    else
      (⟨some frameHash, 0⟩, true)
  if 10 ≤ p.1.frameSkipCount then
    (⟨p.1.lastFrameHash, 0⟩, true)
  else
    p

/-- Run the change-detection block over a list of successive frame hashes,
counting how many cycles decided to publish. -/
def suppressRun : SuppressState → List Nat → SuppressState × Nat
  | st, [] => (st, 0)
  | st, h :: rest =>
    let p := suppressStep st h
    let q := suppressRun p.1 rest
    (q.1, (if p.2 then 1 else 0) + q.2)

theorem suppressStep_skip_le (st : SuppressState) (h : Nat) :
    (suppressStep st h).1.frameSkipCount ≤ 9 := by
  by_cases heq : st.lastFrameHash = some h <;>
    simp [suppressStep, heq] <;> split <;> simp <;> omega

theorem suppressStep_eq_lt (st : SuppressState) (h : Nat)
    (hlast : st.lastFrameHash = some h) (hlt : st.frameSkipCount + 1 < 10) :
    suppressStep st h = (⟨some h, st.frameSkipCount + 1⟩, false) := by
  unfold suppressStep
  simp [hlast]
  omega

theorem suppressStep_eq_force (st : SuppressState) (h : Nat)
    (hlast : st.lastFrameHash = some h) (hge : st.frameSkipCount + 1 ≥ 10) :
    suppressStep st h = (⟨some h, 0⟩, true) := by
  unfold suppressStep
  simp [hlast]
  omega

theorem suppressRun_replicate (h : Nat) :
    ∀ (n s : Nat), s ≤ 9 →
      suppressRun ⟨some h, s⟩ (List.replicate n h) =
        (⟨some h, (s + n) % 10⟩, (s + n) / 10) := by
  intro n
  induction n with
  | zero =>
    intro s hs
    simp [suppressRun]
    omega
  | succ n ih =>
    intro s hs
    rw [List.replicate_succ]
    by_cases hcase : s + 1 < 10
    · have hstep := suppressStep_eq_lt ⟨some h, s⟩ h rfl hcase
      simp only [suppressRun, hstep]
      rw [ih (s + 1) (by omega)]
      simp
      omega
    · have hs9 : s = 9 := by omega
      subst hs9
      have hstep := suppressStep_eq_force ⟨some h, 9⟩ h rfl (by show 9 + 1 ≥ 10; omega)
      simp only [suppressRun, hstep]
      rw [ih 0 (by omega)]
      simp
      omega

/-- C1: while publishing is active, a run of N successive captured frames whose
hash equals the stored last-frame hash produces at most one publish when
N < 10; starting from a fresh streak, the first 9 unchanged frames produce no
publish and the 10th forces one while resetting the streak counter to zero. -/
theorem c1_duplicate_suppression_forced_refresh
    (st : SuppressState) (h n : Nat)
    (hlast : st.lastFrameHash = some h) (hskip : st.frameSkipCount ≤ 9)
    (hn : n < 10) :
    (suppressRun st (List.replicate n h)).2 ≤ 1 ∧
    (suppressRun ⟨some h, 0⟩ (List.replicate 9 h)).2 = 0 ∧
    suppressRun ⟨some h, 0⟩ (List.replicate 10 h) = (⟨some h, 0⟩, 1) := by
  obtain ⟨last, s⟩ := st
  simp only at hlast hskip
  subst hlast
  refine ⟨?_, ?_, ?_⟩
  · rw [suppressRun_replicate h n s hskip]
    simp
    omega
  · rw [suppressRun_replicate h 9 0 (by omega)]
  · rw [suppressRun_replicate h 10 0 (by omega)]

/-- Witness for C1 at the concrete state ⟨some 7, 3⟩ with a run of 9 frames. -/
theorem c1_duplicate_suppression_forced_refresh_witness :
    (suppressRun ⟨some 7, 3⟩ (List.replicate 9 7)).2 ≤ 1 ∧
    (suppressRun ⟨some 7, 0⟩ (List.replicate 9 7)).2 = 0 ∧
    suppressRun ⟨some 7, 0⟩ (List.replicate 10 7) = (⟨some 7, 0⟩, 1) :=
  c1_duplicate_suppression_forced_refresh ⟨some 7, 3⟩ 7 9 rfl (by decide) (by decide)

/-! ## CurveZMQ key material (windows_server/main.py, CaptureWorker._load_or_generate_curve_keys 208-241)

The environment records what the filesystem and the zmq library would do:
whether `server_secret.key` exists, what reading it yields (`none` models the
read or `zmq.curve_public` raising), and the fresh pair `zmq.curve_keypair()`
would return. -/

structure KeyEnv where
  fileExists : Bool
  readResult : Option (List Nat)
  freshPublic : List Nat
  freshSecret : List Nat
  saveSecretOk : Bool
deriving Repr, DecidableEq

structure KeyResult where
  publicKey : List Nat
  secretKey : List Nat
  generatedNew : Bool
  loadErrorLogged : Bool
  raisedToCaller : Bool
  persistedSecret : Bool
deriving Repr, DecidableEq

/-- Embedding of `_load_or_generate_curve_keys`. `derive` stands for
`zmq.curve_public`. On a successful read the stored secret is returned with
its derived public key; on a failed read the error is logged and control
falls through to the generation path, exactly as in the source. -/
def loadOrGenerateCurveKeys (derive : List Nat → List Nat) (env : KeyEnv) : KeyResult :=
  if env.fileExists then
    match env.readResult with
    | some secret =>
      { publicKey := derive secret, secretKey := secret,
        generatedNew := false, loadErrorLogged := false,
        raisedToCaller := false, persistedSecret := false }
    | none =>
      { publicKey := env.freshPublic, secretKey := env.freshSecret,
        generatedNew := true, loadErrorLogged := true,
        raisedToCaller := false, persistedSecret := env.saveSecretOk }
  else
    { publicKey := env.freshPublic, secretKey := env.freshSecret,
      generatedNew := true, loadErrorLogged := false,
      raisedToCaller := false, persistedSecret := env.saveSecretOk }

/-- Environment for a present but unreadable/corrupt key file. -/
def corruptKeyEnv : KeyEnv :=
  { fileExists := true, readResult := none,
    freshPublic := [1, 2], freshSecret := [3, 4], saveSecretOk := true }

/-- C2 counterexample: with a present but corrupt key file, the operation
itself generates (and persists) a fresh pair and reports nothing to the
caller, contradicting the claim that regeneration is left to the caller. -/
theorem c2_corrupt_file_regenerates_cex :
    (loadOrGenerateCurveKeys id corruptKeyEnv).generatedNew = true ∧
    (loadOrGenerateCurveKeys id corruptKeyEnv).raisedToCaller = false ∧
    (loadOrGenerateCurveKeys id corruptKeyEnv).persistedSecret = true := by
  decide

/-- C2 amended: if the key file exists and is readable the returned pair is
derived from the stored secret and nothing new is generated or persisted;
if the file exists but is unreadable/corrupt the failure is logged, never
raised to the caller, and the operation itself generates and persists a
fresh pair. -/
theorem c2_load_or_generate_amended
    (derive : List Nat → List Nat) (env : KeyEnv) (secret : List Nat)
    (hex : env.fileExists = true) :
    (env.readResult = some secret →
      loadOrGenerateCurveKeys derive env =
        { publicKey := derive secret, secretKey := secret,
          generatedNew := false, loadErrorLogged := false,
          raisedToCaller := false, persistedSecret := false }) ∧
    (env.readResult = none →
      (loadOrGenerateCurveKeys derive env).generatedNew = true ∧
      (loadOrGenerateCurveKeys derive env).loadErrorLogged = true ∧
      (loadOrGenerateCurveKeys derive env).raisedToCaller = false ∧
      (loadOrGenerateCurveKeys derive env).persistedSecret = env.saveSecretOk) := by
  constructor
  · intro hr
    simp [loadOrGenerateCurveKeys, hex, hr]
  · intro hr
    simp [loadOrGenerateCurveKeys, hex, hr]

/-- Witness for C2 amended at a readable-file environment. -/
theorem c2_load_or_generate_amended_witness :
    ({ fileExists := true, readResult := some [9], freshPublic := [],
       freshSecret := [], saveSecretOk := true } : KeyEnv).fileExists = true ∧
    loadOrGenerateCurveKeys id
      { fileExists := true, readResult := some [9], freshPublic := [],
        freshSecret := [], saveSecretOk := true } =
      { publicKey := [9], secretKey := [9], generatedNew := false,
        loadErrorLogged := false, raisedToCaller := false,
        persistedSecret := false } :=
  ⟨rfl, (c2_load_or_generate_amended id _ [9] rfl).1 rfl⟩

/-! ## Server control channel (windows_server/main.py, ConnectionChecker 82-175)

`self.clients : dict[addr, last_heartbeat_time]` and
`self.client_sockets : dict[addr, socket]` are modelled as association lists
with unique keys; Python dict assignment and deletion become `dictSet` and
`dictDel`. Times are integers, socket handles are naturals. -/

abbrev Addr := Nat

/-- Python dict assignment `d[k] = v`: replace in place when the key is
present, append otherwise. -/
def dictSet {β : Type} (l : List (Addr × β)) (k : Addr) (v : β) : List (Addr × β) :=
  if l.any (fun p => decide (p.1 = k)) then
    l.map (fun p => if p.1 = k then (k, v) else p)
  else
    l ++ [(k, v)]

/-- Python dict deletion `del d[k]`. -/
def dictDel {β : Type} (l : List (Addr × β)) (k : Addr) : List (Addr × β) :=
  l.filter (fun p => decide (p.1 ≠ k))

/-- Key set of a dict. -/
def keysOf {β : Type} (l : List (Addr × β)) : List Addr :=
  l.map Prod.fst

structure CheckerState where
  clients : List (Addr × Int)
  clientSockets : List (Addr × Nat)
deriving Repr, DecidableEq

/-- Accept path critical section (main.py 118-120): both maps gain the
address under one lock acquisition. -/
def acceptClient (st : CheckerState) (addr : Addr) (now : Int) (sock : Nat) : CheckerState :=
  { clients := dictSet st.clients addr now,
    clientSockets := dictSet st.clientSockets addr sock }

/-- Heartbeat refresh critical section (main.py 146-147): only
`self.clients[addr]` is assigned. -/
def refreshClient (st : CheckerState) (addr : Addr) (now : Int) : CheckerState :=
  { st with clients := dictSet st.clients addr now }

/-- Heartbeat failure critical section (main.py 151-155): the record is
deleted when present, and then the socket entry when present. -/
def hbFailCleanup (st : CheckerState) (addr : Addr) : CheckerState :=
  if addr ∈ keysOf st.clients then
    { clients := dictDel st.clients addr,
      clientSockets :=
        if addr ∈ keysOf st.clientSockets then dictDel st.clientSockets addr
        else st.clientSockets }
  else st

/-- Guarded socket deletion used by the pruning loop (main.py 173-174). -/
def delSocketIfPresent (l : List (Addr × Nat)) (k : Addr) : List (Addr × Nat) :=
  if k ∈ keysOf l then dictDel l k else l

/-- Addresses whose last heartbeat is more than 8 seconds old
(main.py 167-170). -/
def expiredAddrs (now : Int) (clients : List (Addr × Int)) : List Addr :=
  (clients.filter (fun p => decide (8 < now - p.2))).map Prod.fst

/-- Embedding of `get_connected_count` (main.py 163-175): prune every expired
address from both maps, then return the remaining record count. -/
def getConnectedCount (now : Int) (st : CheckerState) : CheckerState × Nat :=
  let expired := expiredAddrs now st.clients
  let clients' := expired.foldl dictDel st.clients
  let sockets' := expired.foldl delSocketIfPresent st.clientSockets
  (⟨clients', sockets'⟩, clients'.length)

theorem mem_keysOf_iff {β : Type} (l : List (Addr × β)) (a : Addr) :
    a ∈ keysOf l ↔ ∃ p ∈ l, p.1 = a := by
  simp [keysOf]

theorem mem_keysOf_dictDel {β : Type} (l : List (Addr × β)) (k a : Addr) :
    a ∈ keysOf (dictDel l k) ↔ a ∈ keysOf l ∧ a ≠ k := by
  simp only [keysOf, dictDel, List.mem_map, List.mem_filter, decide_eq_true_eq]
  constructor
  · rintro ⟨p, ⟨hp, hne⟩, hk⟩
    exact ⟨⟨p, hp, hk⟩, hk ▸ hne⟩
  · rintro ⟨⟨p, hp, hk⟩, hne⟩
    exact ⟨p, ⟨hp, hk ▸ hne⟩, hk⟩

theorem keysOf_map_replace {β : Type} (l : List (Addr × β)) (k : Addr) (v : β) :
    keysOf (l.map (fun p => if p.1 = k then (k, v) else p)) = keysOf l := by
  induction l with
  | nil => rfl
  | cons p t ih =>
    by_cases hpk : p.1 = k <;> simp [keysOf, hpk] <;>
      simpa [keysOf] using ih

theorem mem_keysOf_dictSet {β : Type} (l : List (Addr × β)) (k : Addr) (v : β) (a : Addr) :
    a ∈ keysOf (dictSet l k v) ↔ a ∈ keysOf l ∨ a = k := by
  unfold dictSet
  split
  · next hany =>
    have hk : k ∈ keysOf l := by
      simp only [List.any_eq_true, decide_eq_true_eq] at hany
      obtain ⟨p, hp, hpk⟩ := hany
      exact (mem_keysOf_iff l k).mpr ⟨p, hp, hpk⟩
    rw [keysOf_map_replace]
    constructor
    · exact Or.inl
    · rintro (h | h)
      · exact h
      · exact h ▸ hk
  · simp [keysOf]

theorem foldl_dictDel_eq_filter {β : Type} (ks : List Addr) :
    ∀ l : List (Addr × β),
      ks.foldl dictDel l = l.filter (fun p => decide (p.1 ∉ ks)) := by
  induction ks with
  | nil =>
    intro l
    simp
  | cons k ks ih =>
    intro l
    rw [List.foldl_cons, ih (dictDel l k)]
    unfold dictDel
    rw [List.filter_filter]
    apply List.filter_congr
    intro p _
    by_cases h1 : p.1 = k <;> by_cases h2 : p.1 ∈ ks <;> simp [h1, h2]

theorem delSocketIfPresent_eq_dictDel (l : List (Addr × Nat)) (k : Addr) :
    delSocketIfPresent l k = dictDel l k := by
  unfold delSocketIfPresent
  split
  · rfl
  · next hk =>
    rw [dictDel, Eq.comm, List.filter_eq_self]
    intro p hp
    simp only [decide_eq_true_eq]
    intro hpk
    exact hk ((mem_keysOf_iff l k).mpr ⟨p, hp, hpk⟩)

theorem foldl_delSocketIfPresent_eq_filter (ks : List Addr) (l : List (Addr × Nat)) :
    ks.foldl delSocketIfPresent l = l.filter (fun p => decide (p.1 ∉ ks)) := by
  have h : ks.foldl delSocketIfPresent l = ks.foldl dictDel l := by
    have hf : delSocketIfPresent = dictDel := by
      funext l' k'
      exact delSocketIfPresent_eq_dictDel l' k'
    rw [hf]
  rw [h, foldl_dictDel_eq_filter]

theorem mem_keysOf_filter_not_mem {β : Type} (l : List (Addr × β)) (ks : List Addr) (a : Addr) :
    a ∈ keysOf (l.filter (fun p => decide (p.1 ∉ ks))) ↔ a ∈ keysOf l ∧ a ∉ ks := by
  simp only [keysOf, List.mem_map, List.mem_filter, decide_eq_true_eq]
  constructor
  · rintro ⟨p, ⟨hp, hnk⟩, hk⟩
    exact ⟨⟨p, hp, hk⟩, hk ▸ hnk⟩
  · rintro ⟨⟨p, hp, hk⟩, hnk⟩
    exact ⟨p, ⟨hp, hk ▸ hnk⟩, hk⟩

theorem nodupKeys_eq {β : Type} (l : List (Addr × β)) (hnd : (keysOf l).Nodup)
    {p q : Addr × β} (hp : p ∈ l) (hq : q ∈ l) (hk : p.1 = q.1) : p = q := by
  induction l with
  | nil => cases hp
  | cons a t ih =>
    rw [keysOf, List.map_cons, List.nodup_cons] at hnd
    obtain ⟨hna, hnt⟩ := hnd
    rcases List.mem_cons.mp hp with hpa | hpt <;>
      rcases List.mem_cons.mp hq with hqa | hqt
    · rw [hpa, hqa]
    · exfalso
      apply hna
      rw [hpa] at hk
      rw [hk]
      exact List.mem_map.mpr ⟨q, hqt, rfl⟩
    · exfalso
      apply hna
      rw [hqa] at hk
      rw [← hk]
      exact List.mem_map.mpr ⟨p, hpt, rfl⟩
    · exact ih hnt hpt hqt

theorem mem_expiredAddrs (now : Int) (l : List (Addr × Int)) {p : Addr × Int}
    (hp : p ∈ l) (hexp : 8 < now - p.2) : p.1 ∈ expiredAddrs now l :=
  List.mem_map.mpr ⟨p, List.mem_filter.mpr ⟨hp, by simpa⟩, rfl⟩

theorem expiredAddrs_spec (now : Int) (l : List (Addr × Int))
    (hnd : (keysOf l).Nodup) {p : Addr × Int} (hp : p ∈ l) :
    p.1 ∈ expiredAddrs now l ↔ 8 < now - p.2 := by
  constructor
  · intro hmem
    obtain ⟨q, hq, hqk⟩ := List.mem_map.mp hmem
    have hql := (List.mem_filter.mp hq).1
    have hqexp := (List.mem_filter.mp hq).2
    have heq : q = p := nodupKeys_eq l hnd hql hp hqk
    rw [heq] at hqexp
    simpa using hqexp
  · exact mem_expiredAddrs now l hp

theorem getConnectedCount_clients_eq (now : Int) (st : CheckerState) :
    (getConnectedCount now st).1.clients =
      st.clients.filter (fun p => decide (p.1 ∉ expiredAddrs now st.clients)) := by
  simp [getConnectedCount, foldl_dictDel_eq_filter]

theorem getConnectedCount_sockets_eq (now : Int) (st : CheckerState) :
    (getConnectedCount now st).1.clientSockets =
      st.clientSockets.filter (fun p => decide (p.1 ∉ expiredAddrs now st.clients)) := by
  simp [getConnectedCount, foldl_delSocketIfPresent_eq_filter]

/-- C4: `get_connected_count` removes every record whose last heartbeat is more
than 8 seconds old, keeps every record within the threshold, returns the
number of remaining records, and when exactly one record has expired the
returned count is exactly one less than the previous record count. -/
theorem c4_connected_count_prunes
    (now : Int) (st : CheckerState) (hnd : (keysOf st.clients).Nodup) :
    (∀ p ∈ st.clients, 8 < now - p.2 →
        p.1 ∉ keysOf (getConnectedCount now st).1.clients) ∧
    (∀ p ∈ st.clients, now - p.2 ≤ 8 → p ∈ (getConnectedCount now st).1.clients) ∧
    (getConnectedCount now st).2 = (getConnectedCount now st).1.clients.length ∧
    ((st.clients.filter (fun p => decide (8 < now - p.2))).length = 1 →
        (getConnectedCount now st).2 + 1 = st.clients.length) := by
  refine ⟨?_, ?_, ?_, ?_⟩
  · intro p hp hexp hmem
    rw [getConnectedCount_clients_eq] at hmem
    exact ((mem_keysOf_filter_not_mem _ _ _).mp hmem).2
      (mem_expiredAddrs now st.clients hp hexp)
  · intro p hp hfresh
    rw [getConnectedCount_clients_eq]
    refine List.mem_filter.mpr ⟨hp, ?_⟩
    simp only [decide_eq_true_eq]
    intro hmem
    rw [expiredAddrs_spec now st.clients hnd hp] at hmem
    omega
  · simp [getConnectedCount]
  · intro hone
    have hcong : st.clients.filter (fun p => decide (p.1 ∉ expiredAddrs now st.clients)) =
        st.clients.filter (fun p => !decide (8 < now - p.2)) := by
      apply List.filter_congr
      intro p hp
      by_cases hexp : 8 < now - p.2
      · simp [hexp, (expiredAddrs_spec now st.clients hnd hp).mpr hexp]
      · have : p.1 ∉ expiredAddrs now st.clients := fun hmem =>
          hexp ((expiredAddrs_spec now st.clients hnd hp).mp hmem)
        simp [hexp, this]
    have hlen := List.length_eq_length_filter_add
      (l := st.clients) (fun p => decide (8 < now - p.2))
    have hcount : (getConnectedCount now st).2 =
        (st.clients.filter (fun p => !decide (8 < now - p.2))).length := by
      have h1 : (getConnectedCount now st).2 =
          (getConnectedCount now st).1.clients.length := by
        simp [getConnectedCount]
      rw [h1, getConnectedCount_clients_eq, hcong]
    rw [hcount]
    omega

/-- Witness for C4 at a two-client state where exactly client 1 has expired
at time 20 (last heartbeats 15 and 2). -/
theorem c4_connected_count_prunes_witness :
    (∀ p ∈ [((0 : Addr), (15 : Int)), (1, 2)], 8 < 20 - p.2 →
        p.1 ∉ keysOf (getConnectedCount 20 ⟨[(0, 15), (1, 2)], [(0, 7), (1, 8)]⟩).1.clients) ∧
    (∀ p ∈ [((0 : Addr), (15 : Int)), (1, 2)], (20 : Int) - p.2 ≤ 8 →
        p ∈ (getConnectedCount 20 ⟨[(0, 15), (1, 2)], [(0, 7), (1, 8)]⟩).1.clients) ∧
    (getConnectedCount 20 ⟨[(0, 15), (1, 2)], [(0, 7), (1, 8)]⟩).2 =
      (getConnectedCount 20 ⟨[(0, 15), (1, 2)], [(0, 7), (1, 8)]⟩).1.clients.length ∧
    (([((0 : Addr), (15 : Int)), (1, 2)].filter
        (fun p => decide (8 < (20 : Int) - p.2))).length = 1 →
      (getConnectedCount 20 ⟨[(0, 15), (1, 2)], [(0, 7), (1, 8)]⟩).2 + 1 =
        ([((0 : Addr), (15 : Int)), (1, 2)] : List (Addr × Int)).length) :=
  c4_connected_count_prunes 20 ⟨[(0, 15), (1, 2)], [(0, 7), (1, 8)]⟩ (by decide)

/-! ## Per-client heartbeat reader (windows_server/main.py, ConnectionChecker._heartbeat_check 140-161)

Each loop iteration observes either received bytes or a raised exception
(`recv` failure or 5s timeout, both caught by the bare `except`). After the
loop the socket is always closed. -/

inductive HBEvent where
  | recv (data : List Nat)
  | fail
deriving Repr, DecidableEq

/-- Literal heartbeat payload `b"hb"`. -/
def hbBytes : List Nat := [104, 98]

/-- One iteration of the `_heartbeat_check` loop body: on `b"hb"` the record
time is refreshed and the loop continues; on any other payload the loop
breaks with no map change; on an exception both maps drop the address (when
present) and the loop breaks. -/
def hbCheckStep (addr : Addr) (now : Int) (st : CheckerState) :
    HBEvent → CheckerState × Bool
  | .recv data =>
    if data = hbBytes then (refreshClient st addr now, true) else (st, false)
  | .fail => (hbFailCleanup st addr, false)

/-- A full run of `_heartbeat_check` over a list of observed events. The
returned flag records whether the reader reached `conn.close()` (it does as
soon as the loop guard fails or the body breaks). -/
def hbCheckRun (addr : Addr) (now : Int) :
    CheckerState → List HBEvent → CheckerState × Bool
  | st, [] => (st, false)
  | st, e :: es =>
    if addr ∈ keysOf st.clients then
      let p := hbCheckStep addr now st e
      if p.2 then hbCheckRun addr now p.1 es else (p.1, true)
    else
      (st, true)

/-- C3 counterexample: for client 0 with a record present, receiving the
payload `b"x"` (any payload other than `b"hb"`) terminates the reader and
closes the socket, but the client's record is NOT removed from the record
map, contradicting the claim that every termination cause removes it. -/
theorem c3_unexpected_payload_keeps_record_cex :
    [120] ≠ hbBytes ∧
    (hbCheckRun 0 5 ⟨[(0, 0)], [(0, 0)]⟩ [HBEvent.recv [120]]).2 = true ∧
    (0 : Addr) ∈ keysOf (hbCheckRun 0 5 ⟨[(0, 0)], [(0, 0)]⟩
      [HBEvent.recv [120]]).1.clients := by
  decide

/-- C3 amended: on a read failure or timeout the client's record is removed
from both maps and the socket is closed; on any payload other than `b"hb"`
the reader terminates and the socket is closed, but the maps are left
unchanged (the record is only pruned later by `get_connected_count`). -/
theorem c3_heartbeat_reader_termination_amended
    (addr : Addr) (now : Int) (st : CheckerState) (data : List Nat)
    (hmem : addr ∈ keysOf st.clients) (hdata : data ≠ hbBytes) :
    hbCheckRun addr now st [HBEvent.fail] = (hbFailCleanup st addr, true) ∧
    addr ∉ keysOf (hbFailCleanup st addr).clients ∧
    addr ∉ keysOf (hbFailCleanup st addr).clientSockets ∧
    hbCheckRun addr now st [HBEvent.recv data] = (st, true) := by
  refine ⟨?_, ?_, ?_, ?_⟩
  · simp [hbCheckRun, hbCheckStep, hmem]
  · unfold hbFailCleanup
    rw [if_pos hmem]
    intro h
    exact ((mem_keysOf_dictDel _ _ _).mp h).2 rfl
  · unfold hbFailCleanup
    rw [if_pos hmem]
    simp only
    split
    · intro h
      exact ((mem_keysOf_dictDel _ _ _).mp h).2 rfl
    · next hns => exact hns
  · simp [hbCheckRun, hbCheckStep, hmem, hdata]

/-- Witness for C3 amended: client 0 present, payload `b"x"`. -/
theorem c3_heartbeat_reader_termination_amended_witness :
    hbCheckRun 0 5 ⟨[(0, 0)], [(0, 0)]⟩ [HBEvent.fail] =
      (hbFailCleanup ⟨[(0, 0)], [(0, 0)]⟩ 0, true) ∧
    (0 : Addr) ∉ keysOf (hbFailCleanup ⟨[(0, 0)], [(0, 0)]⟩ 0).clients ∧
    (0 : Addr) ∉ keysOf (hbFailCleanup ⟨[(0, 0)], [(0, 0)]⟩ 0).clientSockets ∧
    hbCheckRun 0 5 ⟨[(0, 0)], [(0, 0)]⟩ [HBEvent.recv [120]] =
      (⟨[(0, 0)], [(0, 0)]⟩, true) :=
  c3_heartbeat_reader_termination_amended 0 5 ⟨[(0, 0)], [(0, 0)]⟩ [120]
    (by decide) (by decide)

/-! ## Key-set invariant between the two client maps (C10) -/

/-- Key-set agreement between `self.clients` and `self.client_sockets`. -/
def keysEq (st : CheckerState) : Prop :=
  ∀ a : Addr, a ∈ keysOf st.clients ↔ a ∈ keysOf st.clientSockets

/-- C10 counterexample: accept client 0, prune it at a time past the 8s
threshold, then let its heartbeat-refresh critical section run (the reader
thread was blocked in `recv` while the prune ran); the refresh re-inserts
address 0 into the record map only, so the key sets differ at that lock
release. -/
theorem c10_refresh_after_prune_breaks_keysEq_cex :
    ¬ keysEq (refreshClient
        (getConnectedCount 9 (acceptClient ⟨[], []⟩ 0 0 0)).1 0 10) := by
  intro hk
  have h := (hk 0).mp (by decide)
  revert h
  decide

/-- C10 amended: the accept, heartbeat-failure and pruning critical sections
each preserve key-set equality of the two maps, and the heartbeat-refresh
critical section preserves it while the address is still present in the
record map; refresh of an already-pruned address, however, re-inserts the
address into the record map only (see the counterexample). -/
theorem c10_keysEq_critical_sections_amended
    (st : CheckerState) (addr : Addr) (now t : Int) (sock : Nat)
    (hk : keysEq st) :
    keysEq (acceptClient st addr t sock) ∧
    keysEq (hbFailCleanup st addr) ∧
    keysEq (getConnectedCount now st).1 ∧
    (addr ∈ keysOf st.clients → keysEq (refreshClient st addr t)) := by
  refine ⟨?_, ?_, ?_, ?_⟩
  · unfold keysEq
    intro a
    show a ∈ keysOf (dictSet st.clients addr t) ↔
      a ∈ keysOf (dictSet st.clientSockets addr sock)
    rw [mem_keysOf_dictSet, mem_keysOf_dictSet, hk a]
  · unfold keysEq
    intro a
    unfold hbFailCleanup
    split
    · next hmem =>
      have hmem' : addr ∈ keysOf st.clientSockets := (hk addr).mp hmem
      simp only
      rw [if_pos hmem']
      rw [mem_keysOf_dictDel, mem_keysOf_dictDel, hk a]
    · exact hk a
  · unfold keysEq
    intro a
    rw [getConnectedCount_clients_eq, getConnectedCount_sockets_eq,
      mem_keysOf_filter_not_mem, mem_keysOf_filter_not_mem, hk a]
  · intro hmem
    unfold keysEq
    intro a
    show a ∈ keysOf (dictSet st.clients addr t) ↔ a ∈ keysOf st.clientSockets
    rw [mem_keysOf_dictSet]
    constructor
    · rintro (h | h)
      · exact (hk a).mp h
      · exact (hk a).mp (h ▸ hmem)
    · intro h
      exact Or.inl ((hk a).mpr h)

/-- Witness for C10 amended at a one-client state with matching key sets. -/
theorem c10_keysEq_critical_sections_amended_witness :
    keysEq (acceptClient ⟨[(0, 1)], [(0, 5)]⟩ 2 9 3) ∧
    keysEq (hbFailCleanup ⟨[(0, 1)], [(0, 5)]⟩ 2) ∧
    keysEq (getConnectedCount 9 ⟨[(0, 1)], [(0, 5)]⟩).1 ∧
    ((2 : Addr) ∈ keysOf ([((0 : Addr), (1 : Int))]) →
      keysEq (refreshClient ⟨[(0, 1)], [(0, 5)]⟩ 2 9)) :=
  c10_keysEq_critical_sections_amended ⟨[(0, 1)], [(0, 5)]⟩ 2 9 9 3
    (fun _ => Iff.rfl)

/-! ## Encode-and-publish framing (windows_server/main.py 337-357)

`cv2.resize` and the three `cv2.imencode` calls are abstract parameters;
images are opaque naturals. The two-part message is
`[format_prefix, encoded_data]` with `format_prefix = encoding_format.encode()`. -/

structure Published where
  tag : String
  payload : List Nat
deriving Repr, DecidableEq

def supportedFormats : List String := ["jpg", "png", "webp"]

/-- Embedding of the encode-and-send block: resize to the configured target
resolution, pick the encoder by `encoding_format` with the `else` branch
falling back to JPEG, and use the raw configured string as the frame tag. -/
def publishFrame (resize : Nat → Nat × Nat → Nat)
    (encJpg encPng encWebp : Nat → List Nat)
    (encodingFormat : String) (targetResolution : Nat × Nat) (img : Nat) :
    Published :=
  let small := resize img targetResolution
  let payload :=
    if encodingFormat = "jpg" then encJpg small
    else if encodingFormat = "png" then encPng small
    else if encodingFormat = "webp" then encWebp small
    else encJpg small
  { tag := encodingFormat, payload := payload }

/-- C5 counterexample: with `encoding_format = "bmp"` the published message
carries the tag `"bmp"`, which is outside {jpg, png, webp}, while its payload
is JPEG-encoded — so the claimed invariant fails for configuration values
outside the three supported codecs. -/
theorem c5_unsupported_format_tag_cex :
    (publishFrame (fun i _ => i) (fun i => [1, i]) (fun i => [2, i])
      (fun i => [3, i]) "bmp" (160, 128) 0).tag = "bmp" ∧
    "bmp" ∉ supportedFormats ∧
    (publishFrame (fun i _ => i) (fun i => [1, i]) (fun i => [2, i])
      (fun i => [3, i]) "bmp" (160, 128) 0).payload = [1, 0] := by
  refine ⟨rfl, by decide, rfl⟩

/-- C5 amended: every published message's tag is the raw configured format
string and its payload is encoded at the configured target resolution; when
the configured format is one of the three supported codecs the payload is
that codec's output, and for any other value the payload falls back to JPEG
while the tag (the raw string) lies outside the supported set. -/
theorem c5_publish_framing_amended (resize : Nat → Nat × Nat → Nat)
    (encJpg encPng encWebp : Nat → List Nat) (fmt : String)
    (targetResolution : Nat × Nat) (img : Nat) :
    (publishFrame resize encJpg encPng encWebp fmt targetResolution img).tag = fmt ∧
    (fmt ∈ supportedFormats →
      (publishFrame resize encJpg encPng encWebp fmt targetResolution img).payload =
        (if fmt = "jpg" then encJpg (resize img targetResolution)
         else if fmt = "png" then encPng (resize img targetResolution)
         else encWebp (resize img targetResolution))) ∧
    (fmt ∉ supportedFormats →
      (publishFrame resize encJpg encPng encWebp fmt targetResolution img).payload =
        encJpg (resize img targetResolution)) := by
  refine ⟨rfl, ?_, ?_⟩
  · intro hmem
    simp only [supportedFormats, List.mem_cons, List.not_mem_nil, or_false] at hmem
    rcases hmem with h | h | h <;> subst h <;> simp [publishFrame]
  · intro hmem
    simp only [supportedFormats, List.mem_cons, List.not_mem_nil, or_false,
      not_or] at hmem
    obtain ⟨h1, h2, h3⟩ := hmem
    simp [publishFrame, h1, h2, h3]

/-- Witness for C5 amended at the supported format `"png"` and the
unsupported format case discharged vacuously elsewhere. -/
theorem c5_publish_framing_amended_witness :
    (publishFrame (fun i _ => i) (fun i => [1, i]) (fun i => [2, i])
      (fun i => [3, i]) "png" (160, 128) 4).tag = "png" ∧
    (publishFrame (fun i _ => i) (fun i => [1, i]) (fun i => [2, i])
      (fun i => [3, i]) "png" (160, 128) 4).payload = [2, 4] :=
  ⟨(c5_publish_framing_amended (fun i _ => i) (fun i => [1, i]) (fun i => [2, i])
      (fun i => [3, i]) "png" (160, 128) 4).1,
   by
    have h := (c5_publish_framing_amended (fun i _ => i) (fun i => [1, i])
      (fun i => [2, i]) (fun i => [3, i]) "png" (160, 128) 4).2.1 (by decide)
    simpa using h⟩

/-! ## Client receive/decode drain (zmq_stream_service.py, _zmq_receive_decode_loop 268-321) -/

/-- Poll timeout constant of the loop (line 269). -/
def pollTimeoutMs : Nat := 1000

/-- Batch cap declared at line 270 of the source; it is never applied in the
drain below, mirroring the source. -/
def batchSize : Nat := 5

/-- The inner drain (lines 298-309): while the zero-timeout re-poll still
reports the socket readable, receive one multipart message with `NOBLOCK`.
The argument is the queue of immediately available messages; the drain stops
only when the queue is exhausted. -/
def drainAvailable : List (String × List Nat) → List (String × List Nat)
  | [] => []
  | m :: rest => m :: drainAvailable rest

theorem drainAvailable_eq (q : List (String × List Nat)) : drainAvailable q = q := by
  induction q with
  | nil => rfl
  | cons m rest ih => rw [drainAvailable, ih]

/-- C6 exhibit: with six immediately available messages the loop receives all
six in a single wake — the drain always reads the entire available queue and
the declared batch cap of 5 is never enforced. -/
theorem c6_drain_reads_entire_queue :
    (drainAvailable [("jpg", [0]), ("jpg", [1]), ("jpg", [2]), ("jpg", [3]),
      ("jpg", [4]), ("jpg", [5])]).length = 6 ∧
    batchSize = 5 ∧
    ∀ q : List (String × List Nat), (drainAvailable q).length = q.length := by
  refine ⟨rfl, rfl, ?_⟩
  intro q
  rw [drainAvailable_eq]

/-! ## Client stream session facade (zmq_stream_service.py, ZMQStreamService)

Observable events are the two Qt signals `frame_decoded` and
`connection_status_changed`. The state collects the `_running`,
`_tcp_connected` and `_zmq_initialized` flags plus the liveness of the
resources `connect` creates. -/

inductive SEvent where
  | status (connected : Bool) (msg : String)
  | frame (pix : Nat)
deriving Repr, DecidableEq

structure SessionState where
  running : Bool
  tcpConnected : Bool
  zmqInitialized : Bool
  tcpSocketOpen : Bool
  tcpThreadAlive : Bool
  zmqThreadAlive : Bool
  statsTimerActive : Bool
deriving Repr, DecidableEq

/-- Embedding of `connect` (lines 111-140). When `_running` is already set the
call returns inside the condition block before any emit, thread start or
socket creation. Otherwise the flags are set, `Connecting...` is emitted,
and either resources come up (`zmqInitOk`) or the failure path emits
`ZMQ Init Error` with `_running` left `True`, as in the source. -/
def connectService (zmqInitOk : Bool) (s : SessionState) : SessionState × List SEvent :=
  if s.running then (s, [])
  else
    let s1 : SessionState :=
      { s with running := true, tcpConnected := false, zmqInitialized := false }
    if zmqInitOk then
      ({ s1 with zmqInitialized := true, zmqThreadAlive := true,
                 tcpThreadAlive := true, statsTimerActive := true },
       [SEvent.status false "Connecting..."])
    else
      (s1, [SEvent.status false "Connecting...", SEvent.status false "ZMQ Init Error"])

/-- Embedding of `disconnect` (lines 142-157): stop the stats timer, clear
`_running`, force-close the control socket, join both threads (which then
observe the cleared flag and stop), clean up the subscription resources, and
finally emit one status event whose message depends on whether the service
was still running. -/
def disconnectService (s : SessionState) : SessionState × List SEvent :=
  let wasRunning := s.running
  ({ s with statsTimerActive := false, running := false, tcpSocketOpen := false,
            tcpThreadAlive := false, zmqThreadAlive := false,
            zmqInitialized := false },
   [SEvent.status false (if wasRunning then "Disconnected" else "Already disconnected")])

/-- One wake of the receive/decode loop (lines 274-321): when `_running` is
cleared the loop breaks immediately and emits nothing; otherwise it drains
the available queue and emits a frame event per successfully decoded
message. The returned flag is whether the loop continues. -/
def zmqLoopStep (decode : List Nat → Option Nat) (s : SessionState)
    (queue : List (String × List Nat)) : SessionState × List SEvent × Bool :=
  if s.running = false then (s, [], false)
  else
    (s, (drainAvailable queue).filterMap (fun m => (decode m.2).map SEvent.frame), true)

/-- A fully connected session. -/
def connectedSession : SessionState :=
  { running := true, tcpConnected := true, zmqInitialized := true,
    tcpSocketOpen := true, tcpThreadAlive := true, zmqThreadAlive := true,
    statsTimerActive := true }

/-- C7 counterexample: calling `disconnect` a second time emits a further
connection-status event (`False, "Already disconnected"`), so status events
do occur after the first call returns, contradicting the claimed finality. -/
theorem c7_second_disconnect_emits_event_cex :
    (disconnectService (disconnectService connectedSession).1).2 =
      [SEvent.status false "Already disconnected"] ∧
    (disconnectService (disconnectService connectedSession).1).2 ≠ [] := by
  refine ⟨rfl, ?_⟩
  simp [disconnectService]

/-- C7 amended: `disconnect` never fails and is idempotent on the session
state, and after it returns the receive loop emits no further frame events;
however each call, including a repeated one, emits exactly one
connection-status event (`"Disconnected"` first, `"Already disconnected"`
on a repeat). -/
theorem c7_disconnect_amended (s : SessionState) :
    (disconnectService (disconnectService s).1).1 = (disconnectService s).1 ∧
    (disconnectService s).1.running = false ∧
    (disconnectService (disconnectService s).1).2 =
      [SEvent.status false "Already disconnected"] ∧
    (∀ decode queue, zmqLoopStep decode (disconnectService s).1 queue =
      ((disconnectService s).1, [], false)) := by
  refine ⟨rfl, rfl, rfl, ?_⟩
  intro decode queue
  rfl

/-- Witness for C7 amended at a fully connected session. -/
theorem c7_disconnect_amended_witness :
    (disconnectService (disconnectService connectedSession).1).1 =
      (disconnectService connectedSession).1 ∧
    (disconnectService connectedSession).1.running = false ∧
    (disconnectService (disconnectService connectedSession).1).2 =
      [SEvent.status false "Already disconnected"] ∧
    (∀ decode queue, zmqLoopStep decode (disconnectService connectedSession).1 queue =
      ((disconnectService connectedSession).1, [], false)) :=
  c7_disconnect_amended connectedSession

/-- C8: `connect` is idempotent while the session is already running — the
second call returns the state unchanged (no new threads, socket resources or
timer) and emits no events. -/
theorem c8_connect_noop_while_running (s : SessionState) (zmqInitOk : Bool)
    (hrun : s.running = true) :
    connectService zmqInitOk s = (s, []) := by
  simp [connectService, hrun]

/-- Witness for C8 on a fully connected session. -/
theorem c8_connect_noop_while_running_witness :
    connectService true connectedSession = (connectedSession, []) :=
  c8_connect_noop_while_running connectedSession true rfl

/-! ## Render buffer and pacer (desktop_stream_panel.py 29, 172-174, 200-207) -/

def DESKTOP_STREAM_BUFFER_SIZE : Nat := 2

/-- Python `deque(maxlen=n).append(x)`: append on the right and, when the
length would exceed `maxlen`, silently discard from the left. -/
def dequeAppend (maxlen : Nat) (buf : List Nat) (x : Nat) : List Nat :=
  if maxlen < (buf ++ [x]).length then
    (buf ++ [x]).drop ((buf ++ [x]).length - maxlen)
  else
    buf ++ [x]

theorem dequeAppend_length_le (maxlen : Nat) (buf : List Nat) (x : Nat) :
    (dequeAppend maxlen buf x).length ≤ maxlen := by
  unfold dequeAppend
  split
  · next h =>
    rw [List.length_drop]
    omega
  · next h =>
    omega

theorem dequeAppend_of_lt (maxlen : Nat) (buf : List Nat) (x : Nat)
    (h : buf.length + 1 ≤ maxlen) : dequeAppend maxlen buf x = buf ++ [x] := by
  have hc : ¬ maxlen < (buf ++ [x]).length := by
    rw [List.length_append]
    simp
    omega
  unfold dequeAppend
  rw [if_neg hc]

/-- `on_decoded_pixmap` (lines 172-174): append the decoded frame to the
render buffer while the panel is active. -/
def onDecodedPixmap (active : Bool) (buf : List Nat) (pix : Nat) : List Nat :=
  if active then dequeAppend DESKTOP_STREAM_BUFFER_SIZE buf pix else buf

/-- `render_frame` pacer tick (lines 200-207): pop and display the oldest
frame when one is buffered, otherwise do nothing. -/
def renderFrameTick (buf : List Nat) : List Nat × Option Nat :=
  match buf with
  | [] => ([], none)
  | x :: rest => (rest, some x)

/-- C9 counterexample: appending to a full buffer of capacity 2 evicts the
oldest entry on the append itself — frame 10 leaves the buffer with no pacer
tick involved, contradicting the claim that entries leave only by the pacer
draining them. -/
theorem c9_append_evicts_oldest_cex :
    onDecodedPixmap true [10, 11] 12 = [11, 12] ∧
    (10 : Nat) ∈ [10, 11] ∧
    (10 : Nat) ∉ onDecodedPixmap true [10, 11] 12 := by
  decide

/-- C9 amended: the buffer length never exceeds the capacity 2, the append is
total (never blocks the producer) and keeps arrival order while the buffer
is below capacity, but on a full buffer the append itself implicitly evicts
the oldest entry (deque `maxlen` semantics); the pacer tick is total (never
blocks), observes at most 2 frames, and drains exactly the oldest one when
the buffer is nonempty. -/
theorem c9_render_buffer_amended (buf : List Nat) (x : Nat)
    (hlen : buf.length ≤ 2) :
    (onDecodedPixmap true buf x).length ≤ 2 ∧
    (buf.length < 2 → onDecodedPixmap true buf x = buf ++ [x]) ∧
    (buf.length = 2 → onDecodedPixmap true buf x = buf.tail ++ [x]) ∧
    (renderFrameTick buf).1.length ≤ buf.length ∧
    (buf ≠ [] → renderFrameTick buf = (buf.tail, buf.head?)) := by
  refine ⟨?_, ?_, ?_, ?_, ?_⟩
  · exact dequeAppend_length_le 2 buf x
  · intro hlt
    show dequeAppend 2 buf x = buf ++ [x]
    exact dequeAppend_of_lt 2 buf x (by omega)
  · intro h2
    cases buf with
    | nil => simp at h2
    | cons y rest =>
      have hlen2 : rest.length = 1 := by simpa using h2
      show dequeAppend 2 (y :: rest) x = (y :: rest).tail ++ [x]
      unfold dequeAppend
      rw [if_pos (by simp [hlen2])]
      simp [hlen2]
  · cases buf <;> simp [renderFrameTick]
  · intro hne
    cases buf with
    | nil => exact absurd rfl hne
    | cons y rest => rfl

/-- Witness for C9 amended at a full two-frame buffer. -/
theorem c9_render_buffer_amended_witness :
    (onDecodedPixmap true [10, 11] 12).length ≤ 2 ∧
    (([10, 11] : List Nat).length < 2 → onDecodedPixmap true [10, 11] 12 = [10, 11, 12]) ∧
    (([10, 11] : List Nat).length = 2 →
      onDecodedPixmap true [10, 11] 12 = ([10, 11] : List Nat).tail ++ [12]) ∧
    (renderFrameTick [10, 11]).1.length ≤ ([10, 11] : List Nat).length ∧
    (([10, 11] : List Nat) ≠ [] →
      renderFrameTick [10, 11] = (([10, 11] : List Nat).tail, ([10, 11] : List Nat).head?)) :=
  c9_render_buffer_amended [10, 11] 12 (by decide)

end DisplayStream
